import Mathlib

/-
Shallow embedding of the `std2` library of cppalliance/safe-cpp:

* `src/libsafecxx/include/std2/atomic.h` (and the identical copy in
  `src/libsafecxx/single-header/std2.h`): the `atomic<T>` wrapper around
  `std::atomic<T>` for an integer `T`, modelled with value semantics over `Int`;
* `src/libsafecxx/include/std2/cell.h`: `cell<T>` (`get` / `set` / `replace`);
* `src/libsafecxx/single-header/std2.h`: `optional<T>` (`take`, `take_if`,
  `is_some`) and the free function `replace`;
* `src/libsafecxx/include/std2/box.h`: `box<T>` with an event trace recording
  payload-destructor runs and deallocations;
* `src/libsafecxx/include/std2/ref_cell.h`: `ref_cell<T>` and its guards as a
  state machine over the `cell<int>` borrow counter;
* `src/libsafecxx/include/std2/arc.h` / the `rc` of the single header: the
  reference-counted control block as a state machine, with `std::size_t`
  counters modelled as `Nat` reduced mod `2 ^ 64`;
* `src/libsafecxx/include/std2/shared_mutex.h`: the guards of `shared_mutex`
  over a reader-writer lock state.

C++ `int` is modelled as `Int` (signed overflow is undefined behaviour in the
source language, so reachable states never rely on wrap-around); `std::size_t`
arithmetic is taken mod `2 ^ 64` exactly where the source decrements and
increments it.
-/

namespace std2

/-- The values of C++ `std::memory_order`, carried (and ignored by the value
semantics) by every operation of `std2::atomic`. -/
inductive memory_order where
  | relaxed
  | consume
  | acquire
  | release
  | acq_rel
  | seq_cst
deriving DecidableEq

/-- The stored value of a `std::atomic<T>` for an integer `T`: the underlying
object `t_` of `std2::atomic` in `atomic.h`, with value semantics. -/
structure StdAtomic where
  val : Int
deriving DecidableEq

namespace StdAtomic

/-- `std::atomic<T>::fetch_add`: returns the value held immediately before and
stores the sum. -/
def fetchAdd (s : StdAtomic) (op : Int) : Int × StdAtomic :=
  (s.val, ⟨s.val + op⟩)

/-- `std::atomic<T>::fetch_sub`: returns the value held immediately before and
stores the difference. -/
def fetchSub (s : StdAtomic) (op : Int) : Int × StdAtomic :=
  (s.val, ⟨s.val - op⟩)

/-- `std::atomic<T>::store`. -/
def storeVal (s : StdAtomic) (op : Int) : StdAtomic :=
  ⟨op⟩

/-- `std::atomic<T>::load`. -/
def loadVal (s : StdAtomic) : Int :=
  s.val

end StdAtomic

namespace atomic

/-- `std2::atomic<T>::fetch_add` as written in `atomic.h`:
`return self->t_.get()&->fetch_add(op, memory_order) + op;` — the value of the
underlying `std::atomic` fetch-add, PLUS `op`. First component is the returned
value, second the state after the call. -/
def fetch_add (s : StdAtomic) (op : Int) (_mo : memory_order) : Int × StdAtomic :=
  let r := StdAtomic.fetchAdd s op
  (r.1 + op, r.2)

/-- `std2::atomic<T>::fetch_sub` as written in `atomic.h`:
`return self->t_.get()&->fetch_sub(op, memory_order);`. -/
def fetch_sub (s : StdAtomic) (op : Int) (_mo : memory_order) : Int × StdAtomic :=
  let r := StdAtomic.fetchSub s op
  (r.1, r.2)

/-- `std2::atomic<T>::add_fetch` as written in `atomic.h`:
`return self->t_.get()&->fetch_add(op, memory_order) + op;`. -/
def add_fetch (s : StdAtomic) (op : Int) (_mo : memory_order) : Int × StdAtomic :=
  let r := StdAtomic.fetchAdd s op
  (r.1 + op, r.2)

/-- `std2::atomic<T>::sub_fetch` as written in `atomic.h`:
`return self->t_.get()&->fetch_sub(op, memory_order) - op;`. -/
def sub_fetch (s : StdAtomic) (op : Int) (_mo : memory_order) : Int × StdAtomic :=
  let r := StdAtomic.fetchSub s op
  (r.1 - op, r.2)

/-- `std2::atomic<T>::store`. -/
def store (s : StdAtomic) (op : Int) (_mo : memory_order) : StdAtomic :=
  StdAtomic.storeVal s op

/-- `std2::atomic<T>::load` as written in both copies of the source:
`unsafe { self->t_.get()&.load(memory_order); }` — the underlying
`std::atomic` load is evaluated as an expression statement and its value
discarded, and the function, declared to return `T`, ends with no return
statement (undefined behavior in the source language: falling off the end of
a value-returning function). No defined value is returned, modelled as
`Option.none`. -/
def load (s : StdAtomic) (_mo : memory_order) : Option Int :=
  let _discarded := StdAtomic.loadVal s
  Option.none

end atomic

/-- `std2::cell<T>` of `cell.h`: one stored value of a trivially copyable,
trivially destructible type. -/
structure cell (T : Type) where
  t_ : T
deriving DecidableEq

namespace cell

/-- `cell<T>::get`: copy the stored value out. -/
def get {T : Type} (c : cell T) : T :=
  c.t_

/-- `cell<T>::set`: overwrite the stored value. -/
def set {T : Type} (c : cell T) (t : T) : cell T :=
  ⟨t⟩

/-- `cell<T>::replace` of `cell.h`: `__rel_read` the old value out,
`__rel_write` the new value in, return the old value. First component is the
returned value, second the cell after the call. -/
def replace {T : Type} (c : cell T) (t : T) : T × cell T :=
  (c.t_, ⟨t⟩)

end cell

/-- `std2::optional<T>` of the single header: a two-alternative choice type. -/
inductive optional (T : Type) where
  | none
  | some (t : T)
deriving DecidableEq

/-- The free function `std2::replace` of the single header:
`__rel_read` the old `*dst` out, `__rel_write` `src` in, return the old value.
First component is the returned value, second the object `dst` now holds. -/
def freeReplace {T : Type} (dst : T) (src : T) : T × T :=
  (dst, src)

namespace optional

/-- `optional<T>::is_some` of the single header. -/
def is_some {T : Type} : optional T → Bool
  | .some _ => true
  | .none => false

/-- `optional<T>::take` of the single header:
`return replace<optional<T>>(self, .none);`. First component is the returned
optional, second the state of `self` after the call. -/
def take {T : Type} (self : optional T) : optional T × optional T :=
  freeReplace self .none

/-- `optional<T>::take_if` of the single header: match on a borrow of `self`;
on `.some(^x)`, if `p(x)` is `true` return `replace<optional>(self, .none)`,
if `false` return `.none`; on `.none` return `.none`. First component is the
returned optional, second the state of `self` after the call. -/
def take_if {T : Type} (self : optional T) (p : T → Bool) :
    optional T × optional T :=
  match self with
  | .some x =>
    match p x with
    | true => freeReplace self .none
    | false => (.none, self)
  | .none => (.none, self)

end optional

/-- The observable effects of `std2::box<T>` primitives in `box.h`: a run of
the payload's destructor, or a raw `::operator delete` of the allocation. -/
inductive BoxEvent where
  | payload_dtor
  | dealloc
deriving DecidableEq

/-- `std2::box<T>` of `box.h`: the heap cell `*p_` holding the payload. -/
structure box (T : Type) where
  p_ : T
deriving DecidableEq

namespace box

/-- The value constructor `box(T t)`: allocate and `__rel_write` the payload
into the fresh cell (relocation runs no constructor or destructor on `t`). -/
def ofValue {T : Type} (t : T) : box T :=
  ⟨t⟩

/-- `box<T>::borrow` (and through it `operator*` / `operator->`): a view of
the payload `*p_`. -/
def borrow {T : Type} (b : box T) : T :=
  b.p_

/-- `box<T>::into_inner` of `box.h`: `__rel_read` the payload out of `*p_`
(relocation, no destructor call), `::operator delete` the allocation (raw
deallocation, no destructor call), return the payload. Second component is
the trace of effects the call performs. -/
def into_inner {T : Type} (b : box T) : T × List BoxEvent :=
  (b.p_, [BoxEvent.dealloc])

/-- `box<T>::~box` of `box.h`: `T t = __rel_read(p_);` then
`::operator delete(p_);`, and the local `t` is destroyed at end of scope —
one payload-destructor run, one deallocation. -/
def dtor {T : Type} (_b : box T) : List BoxEvent :=
  [BoxEvent.dealloc, BoxEvent.payload_dtor]

end box

namespace ref_cell

/-- `ref_cell<T>::try_borrow` of `ref_cell.h`, as a function of the value `b`
of the `cell<int>` borrow counter: `if (b < 0) return .none;` else construct a
`ref` guard, whose constructor runs `borrow_.set(borrow_.get() + 1)`. The
`some` payload is the counter value after the guard's construction. -/
def try_borrow (b : Int) : optional Int :=
  if b < 0 then .none else .some (b + 1)

/-- `ref_cell<T>::try_borrow_mut` of `ref_cell.h`, as a function of the value
`b` of the `cell<int>` borrow counter: `if (b > 0) return .none;
if (b == -1) return .none;` else construct a `ref_mut` guard, whose
constructor runs `borrow_.set(borrow_.get() - 1)`. The `some` payload is the
counter value after the guard's construction. -/
def try_borrow_mut (b : Int) : optional Int :=
  if b > 0 then .none
  else if b = -1 then .none
  else .some (b - 1)

/-- `ref_cell<T>::ref::~ref`: `borrow_.set(borrow_.get() - 1)`. -/
def ref_dtor (b : Int) : Int :=
  b - 1

/-- `ref_cell<T>::ref_mut::~ref_mut`: `borrow_.set(borrow_.get() + 1)`. -/
def ref_mut_dtor (b : Int) : Int :=
  b + 1

end ref_cell

/-- A configuration of one `ref_cell` together with the guards currently
alive: the `cell<int>` counter `borrow_count_`, the number of live `ref`
guards and the number of live `ref_mut` guards. -/
structure RefCellState where
  borrow_count_ : Int
  liveRefs : Nat
  liveRefMuts : Nat
deriving DecidableEq

/-- The freshly constructed `ref_cell`: `borrow_count_{0}`, no guards. -/
def refCellInit : RefCellState :=
  ⟨0, 0, 0⟩

/-- The configurations a `ref_cell` can reach by successful `try_borrow` and
`try_borrow_mut` calls and guard destructions (a failed try call returns
`.none` and leaves the configuration unchanged). -/
inductive RefCellReach : RefCellState → Prop where
  | init : RefCellReach refCellInit
  | borrow {s : RefCellState} {b : Int} : RefCellReach s →
      ref_cell.try_borrow s.borrow_count_ = .some b →
      RefCellReach ⟨b, s.liveRefs + 1, s.liveRefMuts⟩
  | borrow_mut {s : RefCellState} {b : Int} : RefCellReach s →
      ref_cell.try_borrow_mut s.borrow_count_ = .some b →
      RefCellReach ⟨b, s.liveRefs, s.liveRefMuts + 1⟩
  | drop_ref {s : RefCellState} {n : Nat} : RefCellReach s →
      s.liveRefs = n + 1 →
      RefCellReach ⟨ref_cell.ref_dtor s.borrow_count_, n, s.liveRefMuts⟩
  | drop_ref_mut {s : RefCellState} {n : Nat} : RefCellReach s →
      s.liveRefMuts = n + 1 →
      RefCellReach ⟨ref_cell.ref_mut_dtor s.borrow_count_, s.liveRefs, n⟩

/-- `std::size_t` arithmetic: values live in `[0, 2^64)`. -/
def sizeTMod : Nat := 2 ^ 64

/-- `++` on a `std::size_t` (the `strong_` increment of `arc::arc(arc const^)`
and of `rc`'s copy constructor), mod `2 ^ 64`. -/
def sizeTInc (v : Nat) : Nat :=
  (v + 1) % sizeTMod

/-- `--` on a `std::size_t` (the `strong_` / `weak_` decrements of `~arc` and
`~rc`), mod `2 ^ 64`. -/
def sizeTDec (v : Nat) : Nat :=
  (v + (sizeTMod - 1)) % sizeTMod

/-- A configuration of one `arc` / `rc` control block together with the
handles currently alive: the `strong_` and `weak_` counters of `arc_inner` /
`rc_inner`, the number of live handles, how many times
`data_.destroy()` has run, and whether the block has been freed. -/
structure ArcState where
  strong_ : Nat
  weak_ : Nat
  handles : Nat
  payloadDestroys : Nat
  blockFreed : Bool
deriving DecidableEq

/-- `arc::arc(T t)` / `rc::rc(T t)`: a fresh control block with
`strong_(1), weak_(1)` and the one constructing handle. -/
def arcInit : ArcState :=
  ⟨1, 1, 1, 0, false⟩

/-- `arc::arc(arc const^ rhs)` / `rc`'s copy constructor: `++p_->strong_`,
one more live handle. -/
def arcCopy (st : ArcState) : ArcState :=
  { st with strong_ := sizeTInc st.strong_, handles := st.handles + 1 }

/-- `arc::~arc` / `rc::~rc` of `arc.h` and the single header:
`std::size_t s = --p_->strong_; if (s == 0) { p_->data_.destroy();
std::size_t w = --p_->weak_; if (w == 0) delete p_; }` (the locals `s` and
`w` of the source are written out). -/
def arcDrop (st : ArcState) : ArcState :=
  if sizeTDec st.strong_ = 0 then
    { strong_ := sizeTDec st.strong_
      weak_ := sizeTDec st.weak_
      handles := st.handles - 1
      payloadDestroys := st.payloadDestroys + 1
      blockFreed := if sizeTDec st.weak_ = 0 then true else st.blockFreed }
  else
    { st with strong_ := sizeTDec st.strong_, handles := st.handles - 1 }

/-- One operation invoked on a live handle of the control block. -/
inductive ArcOp where
  | copy
  | drop
deriving DecidableEq

/-- The effect of one operation. -/
def arcStep (op : ArcOp) (st : ArcState) : ArcState :=
  match op with
  | .copy => arcCopy st
  | .drop => arcDrop st

/-- Run a sequence of copy / drop operations, first operation first. -/
def arcRun (ops : List ArcOp) (st : ArcState) : ArcState :=
  match ops with
  | [] => st
  | op :: rest => arcRun rest (arcStep op st)

/-- An operation is admissible in a configuration when at least one handle is
live (a copy reads `rhs`, a drop destroys a handle: neither exists once all
handles are gone); a copy additionally requires the number of live handles to
stay below `2 ^ 64` (each live handle is a distinct object of nonzero size in
a `2 ^ 64`-byte address space). -/
def arcOpOk (op : ArcOp) (st : ArcState) : Bool :=
  match op with
  | .copy => decide (1 ≤ st.handles) && decide (st.handles + 1 < sizeTMod)
  | .drop => decide (1 ≤ st.handles)

/-- A sequence of operations is valid when each is admissible in the
configuration it runs in. -/
def arcValid : List ArcOp → ArcState → Bool
  | [], _ => true
  | op :: rest, st => arcOpOk op st && arcValid rest (arcStep op st)

/-- A configuration of one `shared_mutex` together with the guards currently
alive: the state of the underlying `std::shared_mutex` (held exclusively, and
by how many shared holders) and the numbers of live `lock_guard` and
`shared_lock_guard` objects. -/
structure SharedMutexState where
  writer : Bool
  readers : Nat
  lockGuards : Nat
  sharedGuards : Nat
deriving DecidableEq

/-- A freshly constructed `shared_mutex`: lock free, no guards. -/
def smInit : SharedMutexState :=
  ⟨false, 0, 0, 0⟩

/-- `shared_mutex::lock`: `mtx_->lock()` then construct a `lock_guard`. -/
def smLock (s : SharedMutexState) : SharedMutexState :=
  { s with writer := true, lockGuards := s.lockGuards + 1 }

/-- `shared_mutex::lock_shared`: `mtx_->lock_shared()` then construct a
`shared_lock_guard`. -/
def smLockShared (s : SharedMutexState) : SharedMutexState :=
  { s with readers := s.readers + 1, sharedGuards := s.sharedGuards + 1 }

/-- `shared_mutex::lock_guard::~lock_guard` of `shared_mutex.h`:
`m_->mtx_->get()&->unlock()` — the exclusive release of the underlying lock. -/
def lock_guard_dtor (s : SharedMutexState) : SharedMutexState :=
  { s with writer := false, lockGuards := s.lockGuards - 1 }

/-- `shared_mutex::shared_lock_guard::~shared_lock_guard` of
`shared_mutex.h`: `m_->mtx_->get()&->unlock_shared()` — the shared release of
the underlying lock. -/
def shared_lock_guard_dtor (s : SharedMutexState) : SharedMutexState :=
  { s with readers := s.readers - 1, sharedGuards := s.sharedGuards - 1 }

/-- The configurations reachable by `lock`, `lock_shared` and guard
destructions. `std::shared_mutex::lock` blocks until no other thread holds
the lock (exclusively or shared); `lock_shared` blocks until no thread holds
it exclusively: an acquisition step fires only when the lock admits it. -/
inductive SmReach : SharedMutexState → Prop where
  | init : SmReach smInit
  | lock {s : SharedMutexState} : SmReach s →
      s.writer = false → s.readers = 0 → SmReach (smLock s)
  | lock_shared {s : SharedMutexState} : SmReach s →
      s.writer = false → SmReach (smLockShared s)
  | drop_lock {s : SharedMutexState} : SmReach s →
      1 ≤ s.lockGuards → SmReach (lock_guard_dtor s)
  | drop_shared {s : SharedMutexState} : SmReach s →
      1 ≤ s.sharedGuards → SmReach (shared_lock_guard_dtor s)

/-- Success condition of `try_borrow`: a guard comes back exactly when the
counter is nonnegative, and the counter after the guard's construction is one
more. -/
theorem try_borrow_some_iff {b b' : Int} :
    ref_cell.try_borrow b = .some b' ↔ 0 ≤ b ∧ b' = b + 1 := by
  unfold ref_cell.try_borrow
  split <;> rename_i hb <;> simp <;> omega

/-- Success condition of `try_borrow_mut`: a guard comes back exactly when the
counter is neither positive nor `-1`, and the counter after the guard's
construction is one less. -/
theorem try_borrow_mut_some_iff {b b' : Int} :
    ref_cell.try_borrow_mut b = .some b' ↔ (b ≤ 0 ∧ b ≠ -1) ∧ b' = b - 1 := by
  unfold ref_cell.try_borrow_mut
  split <;> rename_i hb
  · simp
    omega
  · split <;> rename_i hb'
    · simp
      omega
    · simp
      omega

/-- Invariant of `ref_cell` configurations: either the counter is the number
of live `ref` guards and no `ref_mut` guard is alive, or exactly one
`ref_mut` guard is alive, no `ref` guard is, and the counter is `-1`. -/
theorem refCell_inv {s : RefCellState} (h : RefCellReach s) :
    (s.liveRefMuts = 0 ∧ s.borrow_count_ = (s.liveRefs : Int)) ∨
    (s.liveRefMuts = 1 ∧ s.liveRefs = 0 ∧ s.borrow_count_ = -1) := by
  induction h with
  | init => left; simp [refCellInit]
  | borrow h htb ih =>
    rw [try_borrow_some_iff] at htb
    obtain ⟨hb, rfl⟩ := htb
    dsimp only
    omega
  | borrow_mut h htb ih =>
    rw [try_borrow_mut_some_iff] at htb
    obtain ⟨⟨hb1, hb2⟩, rfl⟩ := htb
    dsimp only
    omega
  | drop_ref h hn ih =>
    dsimp only [ref_cell.ref_dtor]
    omega
  | drop_ref_mut h hn ih =>
    dsimp only [ref_cell.ref_mut_dtor]
    omega

/-- Invariant of `arc` / `rc` control-block configurations: while handles are
alive, `strong_` counts exactly the live handles, `weak_` is still `1`, the
payload has not been destroyed and the block not freed; once the last handle
is gone, both counters are `0`, the payload has been destroyed exactly once
and the block has been freed. -/
def ArcInv (st : ArcState) : Prop :=
  (1 ≤ st.handles ∧ st.handles < sizeTMod ∧ st.strong_ = st.handles ∧
    st.weak_ = 1 ∧ st.payloadDestroys = 0 ∧ st.blockFreed = false) ∨
  (st.handles = 0 ∧ st.strong_ = 0 ∧ st.weak_ = 0 ∧
    st.payloadDestroys = 1 ∧ st.blockFreed = true)

theorem sizeTDec_of_pos {v : Nat} (h1 : 1 ≤ v) (h2 : v < sizeTMod) :
    sizeTDec v = v - 1 := by
  unfold sizeTDec sizeTMod at *
  omega

theorem sizeTInc_of_lt {v : Nat} (h : v + 1 < sizeTMod) :
    sizeTInc v = v + 1 := by
  unfold sizeTInc sizeTMod at *
  omega

theorem sizeTDec_one : sizeTDec 1 = 0 := by
  unfold sizeTDec sizeTMod
  omega

/-- `arcDrop` at strong count `1` and weak count `1`: the drop that takes the
strong count to `0` destroys the payload, decrements the weak count to `0`
and frees the block. -/
theorem arcDrop_last {st : ArcState} (hs : st.strong_ = 1) (hw : st.weak_ = 1) :
    arcDrop st = ⟨0, 0, st.handles - 1, st.payloadDestroys + 1, true⟩ := by
  unfold arcDrop
  rw [hs, hw, sizeTDec_one]
  simp

/-- `arcDrop` at a strong count of at least `2` (and in range): only the
strong count and the handle count go down. -/
theorem arcDrop_not_last {st : ArcState} (hs : 2 ≤ st.strong_)
    (hs2 : st.strong_ < sizeTMod) :
    arcDrop st =
      { st with strong_ := st.strong_ - 1, handles := st.handles - 1 } := by
  unfold arcDrop
  rw [sizeTDec_of_pos (by omega) hs2, if_neg (by omega)]

/-- One admissible operation preserves the control-block invariant. -/
theorem arcStep_inv {op : ArcOp} {st : ArcState} (hop : arcOpOk op st = true)
    (hi : ArcInv st) : ArcInv (arcStep op st) := by
  obtain ⟨sv, wv, hv, pv, bv⟩ := st
  cases op with
  | copy =>
    simp only [arcOpOk, Bool.and_eq_true, decide_eq_true_eq] at hop
    obtain ⟨hh, hlt⟩ := hop
    rcases hi with ⟨h1, h2, h3, h4, h5, h6⟩ | ⟨h1, h2, h3, h4, h5⟩
    · dsimp only at h1 h2 h3 h4 h5 h6
      show ArcInv ⟨sizeTInc sv, wv, hv + 1, pv, bv⟩
      rw [show sizeTInc sv = sv + 1 from sizeTInc_of_lt (by omega)]
      left
      refine ⟨?_, ?_, ?_, h4, h5, h6⟩ <;> dsimp only <;> omega
    · dsimp only at h1
      exact absurd hh (by omega)
  | drop =>
    simp only [arcOpOk, decide_eq_true_eq] at hop
    rcases hi with ⟨h1, h2, h3, h4, h5, h6⟩ | ⟨h1, h2, h3, h4, h5⟩
    · dsimp only at h1 h2 h3 h4 h5 h6
      show ArcInv (arcDrop ⟨sv, wv, hv, pv, bv⟩)
      by_cases hone : sv = 1
      · rw [arcDrop_last hone h4]
        right
        exact ⟨by dsimp only; omega, rfl, rfl, by dsimp only; omega, rfl⟩
      · rw [arcDrop_not_last (by dsimp only; omega) (by dsimp only; omega)]
        left
        refine ⟨?_, ?_, ?_, h4, h5, h6⟩ <;> dsimp only <;> omega
    · dsimp only at h1
      exact absurd hop (by omega)
  
/-- Every valid run from a configuration satisfying the invariant ends in one
satisfying it. -/
theorem arcRun_inv (ops : List ArcOp) (st : ArcState)
    (hv : arcValid ops st = true) (hi : ArcInv st) : ArcInv (arcRun ops st) := by
  induction ops generalizing st with
  | nil => exact hi
  | cons op rest ih =>
    rw [arcValid, Bool.and_eq_true] at hv
    show ArcInv (arcRun rest (arcStep op st))
    exact ih (arcStep op st) hv.2 (arcStep_inv hv.1 hi)

/-- Invariant of `shared_mutex` configurations: the number of live
`lock_guard` objects is `1` when the lock is held exclusively and `0`
otherwise, the number of live `shared_lock_guard` objects is the lock's
shared hold count, and an exclusive hold excludes every shared hold. -/
def SmInv (s : SharedMutexState) : Prop :=
  s.lockGuards = (if s.writer then 1 else 0) ∧
  s.sharedGuards = s.readers ∧
  (s.writer = true → s.readers = 0)

theorem smReach_inv {s : SharedMutexState} (h : SmReach s) : SmInv s := by
  induction h with
  | init => exact ⟨rfl, rfl, fun _ => rfl⟩
  | lock h hw hr ih =>
    rename_i t
    obtain ⟨h1, h2, h3⟩ := ih
    obtain ⟨tw, tr, tl, ts⟩ := t
    dsimp only at h1 h2 h3 hw hr ⊢
    subst hw hr
    refine ⟨?_, ?_, ?_⟩ <;> dsimp only [smLock, SmInv] <;> simp_all
  | lock_shared h hw ih =>
    rename_i t
    obtain ⟨h1, h2, h3⟩ := ih
    obtain ⟨tw, tr, tl, ts⟩ := t
    dsimp only at h1 h2 h3 hw ⊢
    subst hw
    refine ⟨?_, ?_, ?_⟩ <;> dsimp only [smLockShared, SmInv] <;> simp_all
  | drop_lock h hg ih =>
    rename_i t
    obtain ⟨h1, h2, h3⟩ := ih
    obtain ⟨tw, tr, tl, ts⟩ := t
    dsimp only at h1 h2 h3 hg ⊢
    have hw : tw = true := by
      cases tw
      · simp at h1
        omega
      · rfl
    refine ⟨?_, ?_, ?_⟩ <;> dsimp only [lock_guard_dtor, SmInv] <;> simp_all
  | drop_shared h hg ih =>
    rename_i t
    obtain ⟨h1, h2, h3⟩ := ih
    obtain ⟨tw, tr, tl, ts⟩ := t
    dsimp only at h1 h2 h3 hg ⊢
    have hw : tw = false := by
      cases tw
      · rfl
      · rw [h3 rfl] at h2
        omega
    refine ⟨?_, ?_, ?_⟩ <;> dsimp only [shared_lock_guard_dtor, SmInv] <;> simp_all

/-- For every `n`, a configuration with `n` live shared guards (and `n`
shared holds of the lock) is reachable. -/
theorem smReach_n_shared (n : Nat) :
    SmReach ⟨false, n, 0, n⟩ := by
  induction n with
  | zero => exact SmReach.init
  | succ n ih => exact SmReach.lock_shared ih rfl

theorem arcInit_inv : ArcInv arcInit := by
  left
  refine ⟨le_refl 1, ?_, rfl, rfl, rfl, rfl⟩
  show (1 : Nat) < 2 ^ 64
  norm_num

/-- C1: for every sequence of `arc` / `rc` copy and drop operations starting
from construct-from-value (strong = weak = 1), the payload destructor has run
at most once, and exactly once precisely when the last handle has been
dropped; from any still-live configuration, a drop destroys the payload
exactly when its strong-count decrement goes from 1 to 0, and at that same
drop the weak count is decremented (here reaching 0, there being no weak
handles) while a drop from a larger strong count leaves the weak count, the
destroy count and the freed flag untouched; the control block is freed
exactly when the weak count has reached 0. -/
theorem C1_arc_payload_destroyed_once (ops : List ArcOp)
    (h : arcValid ops arcInit = true) :
    (arcRun ops arcInit).payloadDestroys ≤ 1 ∧
    ((arcRun ops arcInit).payloadDestroys = 1 ↔
      (arcRun ops arcInit).handles = 0) ∧
    (1 ≤ (arcRun ops arcInit).handles →
      ((arcDrop (arcRun ops arcInit)).payloadDestroys =
          (arcRun ops arcInit).payloadDestroys + 1 ↔
        (arcRun ops arcInit).strong_ = 1) ∧
      ((arcRun ops arcInit).strong_ = 1 →
        (arcDrop (arcRun ops arcInit)).weak_ =
          sizeTDec (arcRun ops arcInit).weak_ ∧
        (arcDrop (arcRun ops arcInit)).weak_ = 0 ∧
        (arcDrop (arcRun ops arcInit)).blockFreed = true) ∧
      ((arcRun ops arcInit).strong_ ≠ 1 →
        (arcDrop (arcRun ops arcInit)).weak_ = (arcRun ops arcInit).weak_ ∧
        (arcDrop (arcRun ops arcInit)).payloadDestroys =
          (arcRun ops arcInit).payloadDestroys ∧
        (arcDrop (arcRun ops arcInit)).blockFreed =
          (arcRun ops arcInit).blockFreed)) ∧
    ((arcRun ops arcInit).blockFreed = true ↔
      (arcRun ops arcInit).weak_ = 0) := by
  have hinv : ArcInv (arcRun ops arcInit) := arcRun_inv ops arcInit h arcInit_inv
  rcases hinv with ⟨h1, h2, h3, h4, h5, h6⟩ | ⟨h1, h2, h3, h4, h5⟩
  · refine ⟨by omega, by omega, ?_, ?_⟩
    · intro _
      by_cases hone : (arcRun ops arcInit).strong_ = 1
      · rw [arcDrop_last hone h4]
        dsimp only
        refine ⟨by simp [hone], ?_, fun hne => absurd hone hne⟩
        intro _
        refine ⟨?_, rfl, rfl⟩
        rw [h4, sizeTDec_one]
      · rw [arcDrop_not_last (by omega) (by omega)]
        dsimp only
        refine ⟨by omega, fun hc => absurd hc hone, ?_⟩
        intro _
        exact ⟨rfl, rfl, rfl⟩
    · rw [h6, h4]
      simp
  · refine ⟨by omega, by omega, ?_, ?_⟩
    · intro hc
      omega
    · rw [h5, h3]
      simp

/-- Witness for C1 at the operation sequence copy, drop, drop. -/
theorem C1_arc_payload_destroyed_once_witness :
    (arcRun [ArcOp.copy, ArcOp.drop, ArcOp.drop] arcInit).payloadDestroys ≤ 1 ∧
    ((arcRun [ArcOp.copy, ArcOp.drop, ArcOp.drop] arcInit).payloadDestroys = 1 ↔
      (arcRun [ArcOp.copy, ArcOp.drop, ArcOp.drop] arcInit).handles = 0) ∧
    (1 ≤ (arcRun [ArcOp.copy, ArcOp.drop, ArcOp.drop] arcInit).handles →
      ((arcDrop (arcRun [ArcOp.copy, ArcOp.drop, ArcOp.drop] arcInit)).payloadDestroys =
          (arcRun [ArcOp.copy, ArcOp.drop, ArcOp.drop] arcInit).payloadDestroys + 1 ↔
        (arcRun [ArcOp.copy, ArcOp.drop, ArcOp.drop] arcInit).strong_ = 1) ∧
      ((arcRun [ArcOp.copy, ArcOp.drop, ArcOp.drop] arcInit).strong_ = 1 →
        (arcDrop (arcRun [ArcOp.copy, ArcOp.drop, ArcOp.drop] arcInit)).weak_ =
          sizeTDec (arcRun [ArcOp.copy, ArcOp.drop, ArcOp.drop] arcInit).weak_ ∧
        (arcDrop (arcRun [ArcOp.copy, ArcOp.drop, ArcOp.drop] arcInit)).weak_ = 0 ∧
        (arcDrop (arcRun [ArcOp.copy, ArcOp.drop, ArcOp.drop] arcInit)).blockFreed = true) ∧
      ((arcRun [ArcOp.copy, ArcOp.drop, ArcOp.drop] arcInit).strong_ ≠ 1 →
        (arcDrop (arcRun [ArcOp.copy, ArcOp.drop, ArcOp.drop] arcInit)).weak_ =
          (arcRun [ArcOp.copy, ArcOp.drop, ArcOp.drop] arcInit).weak_ ∧
        (arcDrop (arcRun [ArcOp.copy, ArcOp.drop, ArcOp.drop] arcInit)).payloadDestroys =
          (arcRun [ArcOp.copy, ArcOp.drop, ArcOp.drop] arcInit).payloadDestroys ∧
        (arcDrop (arcRun [ArcOp.copy, ArcOp.drop, ArcOp.drop] arcInit)).blockFreed =
          (arcRun [ArcOp.copy, ArcOp.drop, ArcOp.drop] arcInit).blockFreed)) ∧
    ((arcRun [ArcOp.copy, ArcOp.drop, ArcOp.drop] arcInit).blockFreed = true ↔
      (arcRun [ArcOp.copy, ArcOp.drop, ArcOp.drop] arcInit).weak_ = 0) :=
  C1_arc_payload_destroyed_once [ArcOp.copy, ArcOp.drop, ArcOp.drop] (by decide)

/-- C2: in every reachable `ref_cell` configuration, `try_borrow` returns a
present guard exactly when the counter is nonnegative (none when negative),
and `try_borrow_mut` returns a present guard exactly when the counter is `0`,
equivalently exactly when no shared and no exclusive borrow is live. -/
theorem C2_try_borrow_success_conditions (s : RefCellState)
    (h : RefCellReach s) :
    ((ref_cell.try_borrow s.borrow_count_).is_some = true ↔
      0 ≤ s.borrow_count_) ∧
    ((ref_cell.try_borrow_mut s.borrow_count_).is_some = true ↔
      s.borrow_count_ = 0) ∧
    ((ref_cell.try_borrow_mut s.borrow_count_).is_some = true ↔
      s.liveRefs = 0 ∧ s.liveRefMuts = 0) := by
  have hinv := refCell_inv h
  have hb1 : ∀ b : Int, (ref_cell.try_borrow b).is_some = true ↔ 0 ≤ b := by
    intro b
    unfold ref_cell.try_borrow
    split <;> rename_i hb <;> simp [optional.is_some] <;> omega
  have hb2 : ∀ b : Int,
      (ref_cell.try_borrow_mut b).is_some = true ↔ b ≤ 0 ∧ b ≠ -1 := by
    intro b
    unfold ref_cell.try_borrow_mut
    split <;> rename_i hb
    · simp [optional.is_some]
      omega
    · split <;> rename_i hb2 <;> simp [optional.is_some] <;> omega
  refine ⟨hb1 _, ?_, ?_⟩
  · rw [hb2]
    rcases hinv with ⟨ha, hb⟩ | ⟨ha, hb, hc⟩ <;> omega
  · rw [hb2]
    rcases hinv with ⟨ha, hb⟩ | ⟨ha, hb, hc⟩ <;> omega

/-- Witness for C2 at the freshly constructed `ref_cell`. -/
theorem C2_try_borrow_success_conditions_witness :
    ((ref_cell.try_borrow refCellInit.borrow_count_).is_some = true ↔
      0 ≤ refCellInit.borrow_count_) ∧
    ((ref_cell.try_borrow_mut refCellInit.borrow_count_).is_some = true ↔
      refCellInit.borrow_count_ = 0) ∧
    ((ref_cell.try_borrow_mut refCellInit.borrow_count_).is_some = true ↔
      refCellInit.liveRefs = 0 ∧ refCellInit.liveRefMuts = 0) :=
  C2_try_borrow_success_conditions refCellInit RefCellReach.init

/-- C3: every reachable `ref_cell` configuration has its counter in
`{-1} ∪ ℕ`: when nonnegative the counter equals the number of live shared
guards (and no exclusive guard is live), and it is `-1` exactly when one
exclusive guard is live (and no shared guard); no other negative value is
reachable. -/
theorem C3_borrow_counter_states (s : RefCellState) (h : RefCellReach s) :
    (0 ≤ s.borrow_count_ ∧ s.borrow_count_ = (s.liveRefs : Int) ∧
      s.liveRefMuts = 0) ∨
    (s.borrow_count_ = -1 ∧ s.liveRefMuts = 1 ∧ s.liveRefs = 0) := by
  rcases refCell_inv h with ⟨h1, h2⟩ | ⟨h1, h2, h3⟩
  · left
    exact ⟨by omega, h2, h1⟩
  · right
    exact ⟨h3, h1, h2⟩

/-- Witness for C3 at the configuration reached by one successful
`try_borrow_mut` from a fresh `ref_cell`. -/
theorem C3_borrow_counter_states_witness :
    (0 ≤ (RefCellState.mk (-1) 0 1).borrow_count_ ∧
      (RefCellState.mk (-1) 0 1).borrow_count_ =
        ((RefCellState.mk (-1) 0 1).liveRefs : Int) ∧
      (RefCellState.mk (-1) 0 1).liveRefMuts = 0) ∨
    ((RefCellState.mk (-1) 0 1).borrow_count_ = -1 ∧
      (RefCellState.mk (-1) 0 1).liveRefMuts = 1 ∧
      (RefCellState.mk (-1) 0 1).liveRefs = 0) :=
  C3_borrow_counter_states ⟨-1, 0, 1⟩
    (RefCellReach.borrow_mut RefCellReach.init (by decide))

/-- C4, evaluated at the failing input (stored value 5, addend 3): the code's
`fetch_add` returns 8, the post-add value, identical to `add_fetch` — not the
pre-add value 5 the claim states; `fetch_sub` and `sub_fetch` do return the
pre- and post-subtract values. -/
theorem C4_fetch_add_returns_post_add_value :
    (atomic.fetch_add ⟨5⟩ 3 memory_order.seq_cst).1 = 8 ∧
    (atomic.add_fetch ⟨5⟩ 3 memory_order.seq_cst).1 = 8 ∧
    atomic.fetch_add ⟨5⟩ 3 memory_order.seq_cst =
      atomic.add_fetch ⟨5⟩ 3 memory_order.seq_cst ∧
    ¬(atomic.fetch_add ⟨5⟩ 3 memory_order.seq_cst).1 = 5 ∧
    (atomic.fetch_sub ⟨5⟩ 3 memory_order.seq_cst).1 = 5 ∧
    (atomic.sub_fetch ⟨5⟩ 3 memory_order.seq_cst).1 = 2 :=
  ⟨rfl, rfl, rfl, by decide, rfl, rfl⟩

/-- C5, evaluated at the failing input (store 7, then load, sequential
consistency): the code's `load` has no return statement, so no defined value
comes back — in particular not the value 7 most recently stored, as the claim
requires. -/
theorem C5_load_returns_no_value :
    atomic.load (atomic.store ⟨0⟩ 7 memory_order.seq_cst)
        memory_order.seq_cst = Option.none ∧
    atomic.load (atomic.store ⟨0⟩ 7 memory_order.seq_cst)
        memory_order.seq_cst ≠ Option.some 7 := by
  decide

/-- C6: in every reachable `shared_mutex` configuration no exclusive guard
coexists with a shared guard, while for every `n` a configuration with `n`
live shared guards is reachable; the `lock_guard` destructor performs the
exclusive release (clearing the exclusive hold, leaving the shared count
alone) and the `shared_lock_guard` destructor performs the shared release
(decrementing the shared count, leaving the exclusive hold alone). -/
theorem C6_shared_mutex_exclusion (s : SharedMutexState) (h : SmReach s)
    (n : Nat) :
    ¬(1 ≤ s.lockGuards ∧ 1 ≤ s.sharedGuards) ∧
    (∃ t : SharedMutexState, SmReach t ∧ t.sharedGuards = n) ∧
    ((lock_guard_dtor s).writer = false ∧
      (lock_guard_dtor s).readers = s.readers ∧
      (lock_guard_dtor s).lockGuards = s.lockGuards - 1 ∧
      (lock_guard_dtor s).sharedGuards = s.sharedGuards) ∧
    ((shared_lock_guard_dtor s).readers = s.readers - 1 ∧
      (shared_lock_guard_dtor s).writer = s.writer ∧
      (shared_lock_guard_dtor s).sharedGuards = s.sharedGuards - 1 ∧
      (shared_lock_guard_dtor s).lockGuards = s.lockGuards) := by
  obtain ⟨h1, h2, h3⟩ := smReach_inv h
  refine ⟨?_, ⟨⟨false, n, 0, n⟩, smReach_n_shared n, rfl⟩,
    ⟨rfl, rfl, rfl, rfl⟩, ⟨rfl, rfl, rfl, rfl⟩⟩
  rintro ⟨hl, hs⟩
  by_cases hw : s.writer = true
  · have hr := h3 hw
    omega
  · rw [Bool.not_eq_true] at hw
    rw [hw] at h1
    simp at h1
    omega

/-- Witness for C6 at the initial configuration and n = 2. -/
theorem C6_shared_mutex_exclusion_witness :
    ¬(1 ≤ smInit.lockGuards ∧ 1 ≤ smInit.sharedGuards) ∧
    (∃ t : SharedMutexState, SmReach t ∧ t.sharedGuards = 2) ∧
    ((lock_guard_dtor smInit).writer = false ∧
      (lock_guard_dtor smInit).readers = smInit.readers ∧
      (lock_guard_dtor smInit).lockGuards = smInit.lockGuards - 1 ∧
      (lock_guard_dtor smInit).sharedGuards = smInit.sharedGuards) ∧
    ((shared_lock_guard_dtor smInit).readers = smInit.readers - 1 ∧
      (shared_lock_guard_dtor smInit).writer = smInit.writer ∧
      (shared_lock_guard_dtor smInit).sharedGuards = smInit.sharedGuards - 1 ∧
      (shared_lock_guard_dtor smInit).lockGuards = smInit.lockGuards) :=
  C6_shared_mutex_exclusion smInit SmReach.init 2

/-- C7: `take` returns exactly the previous contents of the optional and
leaves it holding none, in one step. -/
theorem C7_optional_take (T : Type) (o : optional T) :
    (optional.take o).1 = o ∧ (optional.take o).2 = optional.none :=
  ⟨rfl, rfl⟩

/-- C8: `take_if(p)` removes and returns the contents exactly when the
optional is present and `p` holds of the payload; when the optional is
absent, or `p` returns false, the optional is left untouched and none is
returned. -/
theorem C8_optional_take_if (T : Type) (o : optional T) (p : T → Bool) :
    (∀ x, o = optional.some x → p x = true →
      optional.take_if o p = (optional.some x, optional.none)) ∧
    (∀ x, o = optional.some x → p x = false →
      optional.take_if o p = (optional.none, o)) ∧
    (o = optional.none → optional.take_if o p = (optional.none, o)) := by
  refine ⟨?_, ?_, ?_⟩
  · rintro x rfl hp
    simp [optional.take_if, hp, freeReplace]
  · rintro x rfl hp
    simp [optional.take_if, hp]
  · rintro rfl
    rfl

/-- C9: `cell::replace(v)` returns the prior stored value and leaves the cell
holding `v`, exactly as `get` followed by `set` in one step; replacing a cell
by its own `get` leaves it unchanged. -/
theorem C9_cell_replace (T : Type) (c : cell T) (v : T) :
    cell.replace c v = (cell.get c, cell.set c v) ∧
    (cell.replace c (cell.get c)).2 = c := by
  refine ⟨rfl, ?_⟩
  cases c
  rfl

/-- C10: constructing a box from `v` and dereferencing yields `v`;
`into_inner` returns `v`, and its trace of effects contains no run of the
payload's destructor (only the raw deallocation). -/
theorem C10_box_value_roundtrip (T : Type) (v : T) :
    box.borrow (box.ofValue v) = v ∧
    (box.into_inner (box.ofValue v)).1 = v ∧
    BoxEvent.payload_dtor ∉ (box.into_inner (box.ofValue v)).2 :=
  ⟨rfl, rfl, by simp [box.into_inner]⟩

end std2
